import Mathlib

/-!
Shallow embedding of the kensa-port-forwarder broker server.

The source is a single Node/TypeScript program (the websocket broker in
`dist/server.js`, whose source appears in the repository) together with the
zod message schema.  The embedding below translates:

* the zod schema (`portSchema`, `messagesSchema`),
* the in-memory registries (`clients : Client[]`, `connections : Connection[]`),
* the websocket message handler (register / connect_to_host branches, the
  try/catch error policy), the approval listeners installed on a target
  socket, the `createConnection` function, and the socket close handler.

JavaScript numbers carried in messages are modelled as rationals (every
value the program compares or adds here is exactly representable).  JS object
identity is modelled with a heap: `ServerState.heap` is the store of `Client`
objects, `Nat` is an index into it, and the `clients` array of the source
is the list of ids.  Mutating a field of a client object (`client.ws = ws`)
is an update of the heap entry, visible through every reference.

`createConnection` contains `await wait(1000)` between port allocation /
`spawn` and `connections.push`.  The run-to-completion semantics of Node is
modelled by splitting it in two: `createConnectionStart` (everything before
the `await`) runs inside the message event that triggered it and leaves a
`Pending` record; a separate `Event.resume` step (the timer firing) runs the
rest (`commitPending`).  Other websocket events may be dispatched between the
two, exactly as in Node.

Effects on the outside world (websocket sends, process spawn/kill, the
ephemeral authorized-keys files) are recorded as an `Action` list returned by
each step.  An uncaught exception (the approval listener parses messages
outside any try/catch) is modelled by the `crashed` flag: once set, the
process is dead and no further event is processed.
-/

namespace KensaPF

/-- JavaScript numbers as they appear in JSON messages.  Every number this
program ever compares, adds or stores is exactly representable, so exact
rationals are a faithful model of the float64 values. -/
abbrev JsNum := ℚ


inductive ClientType where
  | sender
  | receiver
deriving DecidableEq, Repr

instance : Inhabited ClientType := ⟨ClientType.sender⟩

/-- The `Client` interface of the source: one per registered agent. -/
structure ClientData where
  ws : Nat
  uuid : String
  ssh_key : String
  auto_accept : Bool
  port_whitelist : List ℤ
  port_blacklist : List ℤ
  client_type : ClientType
deriving DecidableEq, Repr, Inhabited

/-- The `Connection` interface of the source: one per active tunnel.
`sender`/`receiver` are references to client objects (heap ids); `sshd` is
the child process handle (modelled as the process id). -/
structure Connection where
  sender : Nat
  receiver : Nat
  sshd : Nat
  sshdPort : ℤ
  localPort : ℤ
deriving DecidableEq, Repr, Inhabited

/-- Inbound messages after JSON parsing, shaped by `messagesSchema`
(the tagged union); numeric refinements are checked by `msgSchemaOK`. -/
inductive Msg where
  | register (ssh_key : String) (uuid : String) (auto_accept : Bool)
      (port_whitelist : List ℤ) (port_blacklist : List ℤ)
      (client_type : ClientType)
  | connect_to_host (target : String) (port : ℤ)
  | connect_accept
  | connect_deny
deriving DecidableEq, Repr

/-- Outbound messages of the wire protocol. -/
inductive OutMsg where
  | response (success : Bool) (error : Option String)
  | connect_confirm (source_client : String) (port : ℤ)
  | tunnel_connect (client_type : ClientType) (user : String)
      (sshd_port : ℤ) (local_port : ℤ) (forwarded_port : ℤ)
  | tunnel_close
deriving DecidableEq, Repr

/-- Observable effects of one engine step. `closeSocket` is included so that
"the websocket is not closed" is expressible; the source never calls
`ws.close`, so no transition ever emits it. -/
inductive Action where
  | send (sock : Nat) (msg : OutMsg)
  | spawnSshd (pid : Nat) (sshdPort : ℤ) (localPort : ℤ)
  | killSshd (pid : Nat)
  | writeKeysFile (port : ℤ)
  | removeKeysFile (port : ℤ)
  | closeSocket (sock : Nat)
  | crash
deriving DecidableEq, Repr

/-- An approval listener installed by the `connect_to_host` handler on the
target socket (`targetClient.ws.on('message', listener)`).  It closes over
the target and source client references, the requester socket and the
requested port.  `sock` is the socket object it was attached to (the value
of `targetClient.ws` at install time); `lid` is the function identity used
by `removeListener`. -/
structure Listener where
  sock : Nat
  target : Nat
  requesterWs : Nat
  source : Nat
  port : ℤ
  lid : Nat
deriving DecidableEq, Repr, Inhabited

/-- The suspended tail of `createConnection`: everything after
`await wait(1000)`.  `pid` is the already-spawned sshd child and doubles as
the resume key. -/
structure Pending where
  pid : Nat
  sender : Nat
  receiver : Nat
  sshdPort : ℤ
  localPort : ℤ
  fwdPort : ℤ
deriving DecidableEq, Repr, Inhabited

/-- Raw inbound data: either text that `JSON.parse`/`messagesSchema.parse`
rejects outright (with the serialized detail the catch block would report),
or a JSON object shaped by the tagged union (numeric refinements may still
fail and are checked by `msgSchemaOK`). -/
inductive InData where
  | malformed (detail : String)
  | valid (m : Msg)
deriving DecidableEq, Repr

/-- External events driving the engine: a websocket message, a websocket
close, or the post-spawn warm-up timer of a suspended `createConnection`
firing. -/
inductive Event where
  | message (sock : Nat) (d : InData)
  | close (sock : Nat)
  | resume (pid : Nat)
deriving DecidableEq, Repr

/-- Environment configuration read at startup. -/
structure Config where
  OPENED_PORTS : List ℤ
  FORWARDING_USER : String
deriving DecidableEq, Repr

/-- The whole mutable state of the broker process. `files` is the set of
`authorized_keys_<sshdPort>` files present in the tmp folder, keyed by port. -/
structure ServerState where
  heap : List ClientData
  clients : List Nat
  connections : List Connection
  listeners : List Listener
  pendings : List Pending
  nextPid : Nat
  nextLid : Nat
  files : List ℤ
  crashed : Bool
deriving DecidableEq, Repr

def initState : ServerState :=
  { heap := [], clients := [], connections := [], listeners := [],
    pendings := [], nextPid := 0, nextLid := 0, files := [], crashed := false }

/-! ## The zod schema (src/server/src/schema.ts) -/

/-- `portSchema = z.number().positive().max(65_535)` applied to a JavaScript
number: strictly positive and at most 65535.  Note: the schema has no
`.int()` refinement, so non-integral numbers pass it. -/
def portSchemaOK (p : JsNum) : Bool :=
  decide (0 < p) && decide (p ≤ 65535)

/-- `portSchema` restricted to the integral values the engine model carries. -/
def portOK (p : ℤ) : Bool :=
  decide (0 < p) && decide (p ≤ 65535)

/-- The integral port check agrees with the zod `portSchema` on integers. -/
theorem portOK_eq_portSchemaOK (p : ℤ) : portOK p = portSchemaOK (p : JsNum) := by
  simp only [portOK, portSchemaOK]
  have h1 : (0 < (p : JsNum)) ↔ 0 < p := by exact_mod_cast Iff.rfl
  have h2 : ((p : JsNum) ≤ 65535) ↔ p ≤ 65535 := by exact_mod_cast Iff.rfl
  simp [h1, h2]

/-- The numeric refinements of `messagesSchema` on an already-shaped message:
every port field must satisfy `portSchema`. -/
def msgSchemaOK : Msg → Bool
  | .register _ _ _ wl bl _ => wl.all portOK && bl.all portOK
  | .connect_to_host _ p => portOK p
  | .connect_accept => true
  | .connect_deny => true

/-- Modelled from the spec: the fields at which validation fails, standing in
for the `path` components of the zod issue list (the zod library itself is
outside this repository). -/
def zodIssues : Msg → List String
  | .register _ _ _ wl bl _ =>
      (if wl.all portOK then [] else ["port_whitelist"]) ++
      (if bl.all portOK then [] else ["port_blacklist"])
  | .connect_to_host _ p => if portOK p then [] else ["port"]
  | _ => []

/-- Modelled from the spec: `JSON.stringify(err.errors)` of the catch block,
serializing the structured validation issues into the error string. -/
def zodDetail (m : Msg) : String :=
  "invalid input at " ++ String.intercalate ", " (zodIssues m)

/-! ## Helpers over the state -/

/-- Dereference a client object. Ids produced by the engine always point
into the heap; `getD` totalizes the lookup. -/
def getClient (st : ServerState) (cid : Nat) : ClientData :=
  st.heap.getD cid default

/-- `clients.find(c => c.ws === ws)` : the first registered client whose
current socket is `s`. -/
def findByWs (st : ServerState) (s : Nat) : Option Nat :=
  st.clients.find? (fun cid => (getClient st cid).ws = s)

/-- `uuid.startsWith(target)`, computed on the character lists (semantically
the same as `String.startsWith`, but the character-list form evaluates in the
kernel). -/
def strStartsWith (s target : String) : Bool :=
  target.data.isPrefixOf s.data

/-- `clients.filter(c => c.client_type === 'sender' && c.uuid.startsWith(target))` -/
def searchSenders (st : ServerState) (target : String) : List Nat :=
  st.clients.filter (fun cid =>
    (getClient st cid).client_type = ClientType.sender &&
    strStartsWith (getClient st cid).uuid target)

/-- `connections.some(con => con.sshdPort === port)` -/
def heldSshd (st : ServerState) (p : ℤ) : Bool :=
  st.connections.any (fun con => con.sshdPort = p)

/-- `connections.some(con => con.localPort === localPort)` -/
def heldLocal (st : ServerState) (p : ℤ) : Bool :=
  st.connections.any (fun con => con.localPort = p)

/-- `Math.max(...OPENED_PORTS)`.  The `[]` case is unreachable: the program
exits at startup when `OPENED_PORTS` is empty. -/
def mathMax : List ℤ → ℤ
  | [] => 0
  | x :: xs => xs.foldl max x

/-- The `while (collision) localPort++` loop.  `fuel` bounds the recursion;
the callers pass `used.length + 1`, which always suffices because the
candidate strictly increases and each used value can block it at most once. -/
def nextFreeLocal (used : List ℤ) : ℤ → Nat → ℤ
  | cand, 0 => cand
  | cand, fuel + 1 => if cand ∈ used then nextFreeLocal used (cand + 1) fuel else cand

/-! ## The message handlers -/

/-- NB: the two policy refusal strings of the source contain apostrophes and
JS interpolation; they are rendered here as close apostrophe-free
paraphrases with the same port interpolation. -/
def wlDenyMsg (p : ℤ) : String :=
  "the port " ++ toString p ++ " is not in the whitelist of the client"

def blDenyMsg (p : ℤ) : String :=
  "the port " ++ toString p ++ " is in the blacklist of the client"

/-- `wsSendResponse(ws, success, error)` -/
def wsSendResponse (s : Nat) (success : Bool) (error : Option String) : Action :=
  Action.send s (OutMsg.response success error)

/-- The `register` branch of the message handler: look the uuid up in the
registry; if present only the `ws` field of the existing client object is
overwritten (`client.ws = ws`), otherwise a new client is appended; in both
cases `response(success=true)` is sent. -/
def handleRegister (st : ServerState) (s : Nat) (ssh_key uuid : String)
    (auto_accept : Bool) (wl bl : List ℤ) (ct : ClientType) :
    ServerState × List Action :=
  match st.clients.find? (fun cid => (getClient st cid).uuid = uuid) with
  | some cid =>
      ({ st with heap := st.heap.set cid { getClient st cid with ws := s } },
       [Action.send s (OutMsg.response true none)])
  | none =>
      ({ st with heap := st.heap ++ [⟨s, uuid, ssh_key, auto_accept, wl, bl, ct⟩],
                 clients := st.clients ++ [st.heap.length] },
       [Action.send s (OutMsg.response true none)])

/-- The part of `createConnection` before `await wait(1000)`: pick the first
opened port not held by a live connection (note `if (!sshdPort)` also treats
port `0` as unavailable), pick the local port by the increment loop, remove
and rewrite the ephemeral authorized-keys file, spawn the sshd child, and
suspend: the remainder is stored as a `Pending` to be run by `Event.resume`. -/
def createConnectionStart (cfg : Config) (st : ServerState) (requesterWs : Nat)
    (sourceId targetId : Nat) (fwdPort : ℤ) : ServerState × List Action :=
  match cfg.OPENED_PORTS.find? (fun port => !heldSshd st port) with
  | none => (st, [wsSendResponse requesterWs false (some "Server is full")])
  | some sshdPort =>
      if sshdPort = 0 then
        (st, [wsSendResponse requesterWs false (some "Server is full")])
      else
        let used := st.connections.map (fun con => con.localPort)
        let localPort := nextFreeLocal used (mathMax cfg.OPENED_PORTS + 1) (used.length + 1)
        let pid := st.nextPid
        ({ st with files := sshdPort :: st.files.erase sshdPort,
                   nextPid := pid + 1,
                   pendings := st.pendings ++
                     [⟨pid, targetId, sourceId, sshdPort, localPort, fwdPort⟩] },
         (if st.files.contains sshdPort then [Action.removeKeysFile sshdPort] else []) ++
         [Action.writeKeysFile sshdPort, Action.spawnSshd pid sshdPort localPort])

/-- The tail of `createConnection` after `await wait(1000)`: push the
`Connection` and send `tunnel_connect` to the receiver (forwarded_port 0)
and then to the sender (forwarded_port = the requested port).  The sockets
are read from the client objects at this moment, as in the source. -/
def commitPending (cfg : Config) (st : ServerState) (pid : Nat) :
    ServerState × List Action :=
  match st.pendings.find? (fun p => p.pid = pid) with
  | none => (st, [])
  | some p =>
      ({ st with pendings := st.pendings.eraseP (fun q => q.pid = pid),
                 connections := st.connections ++
                   [⟨p.sender, p.receiver, p.pid, p.sshdPort, p.localPort⟩] },
       [Action.send (getClient st p.receiver).ws
          (OutMsg.tunnel_connect ClientType.receiver cfg.FORWARDING_USER
            p.sshdPort p.localPort 0),
        Action.send (getClient st p.sender).ws
          (OutMsg.tunnel_connect ClientType.sender cfg.FORWARDING_USER
            p.sshdPort p.localPort p.fwdPort)])

/-- What happens after the port-policy check passed: either `auto_accept`
starts `createConnection` at once, or a one-shot approval listener is
installed on the target socket and `connect_confirm` is sent to it. -/
def connectProceed (cfg : Config) (st : ServerState) (s : Nat)
    (sourceId targetId : Nat) (port : ℤ) : ServerState × List Action :=
  if (getClient st targetId).auto_accept then
    createConnectionStart cfg st s sourceId targetId port
  else
    ({ st with
        listeners := st.listeners ++
          [⟨(getClient st targetId).ws, targetId, s, sourceId, port, st.nextLid⟩],
        nextLid := st.nextLid + 1 },
     [Action.send (getClient st targetId).ws
        (OutMsg.connect_confirm (getClient st sourceId).uuid port)])

/-- The `connect_to_host` branch: resolve the requester by socket identity,
resolve the target by uuid among senders (must be exactly one), apply the
target port policy (whitelist first, otherwise blacklist), then proceed. -/
def handleConnectToHost (cfg : Config) (st : ServerState) (s : Nat)
    (target : String) (port : ℤ) : ServerState × List Action :=
  match findByWs st s with
  | none => (st, [wsSendResponse s false (some "you are not registered")])
  | some sourceId =>
      match searchSenders st target with
      | [] => (st, [wsSendResponse s false
          (some "There is no client that matches this search")])
      | [targetId] =>
          if (getClient st targetId).port_whitelist.length > 0 then
            if !(getClient st targetId).port_whitelist.contains port then
              (st, [wsSendResponse s false (some (wlDenyMsg port))])
            else connectProceed cfg st s sourceId targetId port
          else if (getClient st targetId).port_blacklist.length > 0 then
            if (getClient st targetId).port_blacklist.contains port then
              (st, [wsSendResponse s false (some (blDenyMsg port))])
            else connectProceed cfg st s sourceId targetId port
          else connectProceed cfg st s sourceId targetId port
      | _ :: _ :: _ => (st, [wsSendResponse s false
          (some "There are multiples clients that match this search, please be more precise with the uuid provided")])

/-- The main `ws.on('message', ...)` handler, i.e. the body of the try/catch:
malformed or schema-invalid input is answered with `response(false, detail)`
(the catch block), `register` and `connect_to_host` are dispatched, and the
remaining valid message types fall through the if/else chain with no effect. -/
def handleMessage (cfg : Config) (st : ServerState) (s : Nat) (d : InData) :
    ServerState × List Action :=
  match d with
  | .malformed detail => (st, [wsSendResponse s false (some detail)])
  | .valid m =>
      if msgSchemaOK m then
        match m with
        | .register k u a wl bl ct => handleRegister st s k u a wl bl ct
        | .connect_to_host target port => handleConnectToHost cfg st s target port
        | .connect_accept => (st, [])
        | .connect_deny => (st, [])
      else (st, [wsSendResponse s false (some (zodDetail m))])

/-- `targetClient.ws.removeListener('message', listener)`: the listener is
detached only if it is attached to the socket object on which
`removeListener` is invoked, i.e. only if the target client's *current*
socket is still the one the listener was installed on. -/
def removeListenerStep (st : ServerState) (l : Listener) : ServerState :=
  if (getClient st l.target).ws = l.sock then
    { st with listeners := st.listeners.filter (fun x => x.lid ≠ l.lid) }
  else st

/-- One approval listener receiving a message.  The listener body calls
`messagesSchema.parse(JSON.parse(data))` outside any try/catch, so malformed
or schema-invalid data raises an uncaught exception and kills the process
(modelled by `crashed`).  `connect_accept` detaches the listener and runs
`createConnection`; `connect_deny` detaches it and refuses; anything else is
ignored. -/
def runListener (cfg : Config) (st : ServerState) (l : Listener) (d : InData) :
    ServerState × List Action :=
  match d with
  | .malformed _ => ({ st with crashed := true }, [Action.crash])
  | .valid m =>
      if msgSchemaOK m then
        match m with
        | .connect_accept =>
            let st' := removeListenerStep st l
            createConnectionStart cfg st' l.requesterWs l.source l.target l.port
        | .connect_deny =>
            (removeListenerStep st l,
             [wsSendResponse l.requesterWs false (some "The client denied the connection")])
        | _ => (st, [])
      else ({ st with crashed := true }, [Action.crash])

/-- Run the snapshot of listeners attached to the socket, in installation
order (Node clones the handler array before emitting, so handlers added or
removed during the emission do not change which ones run).  A listener that
throws stops the emission: the process is dead. -/
def runListeners (cfg : Config) (st : ServerState) (ls : List Listener) (d : InData) :
    ServerState × List Action :=
  match ls with
  | [] => (st, [])
  | l :: rest =>
      if st.crashed then (st, [])
      else
        let r1 := runListener cfg st l d
        let r2 := runListeners cfg r1.1 rest d
        (r2.1, r1.2 ++ r2.2)

/-- A message event on socket `s`: the main handler runs first (it was
registered at connection time), then every approval listener attached to
`s` at arrival. -/
def deliverMessage (cfg : Config) (st : ServerState) (s : Nat) (d : InData) :
    ServerState × List Action :=
  let snapshot := st.listeners.filter (fun l => l.sock = s)
  let r1 := handleMessage cfg st s d
  let r2 := runListeners cfg r1.1 snapshot d
  (r2.1, r1.2 ++ r2.2)

/-- The `ws.on('close', ...)` handler: splice the first client bound to the
socket out of the registry; find the first connection it participates in;
if there is one, splice it out, send `tunnel_close` to each peer other than
the closing client, and kill the child sshd.  The ephemeral authorized-keys
file is not touched. -/
def handleClose (st : ServerState) (s : Nat) : ServerState × List Action :=
  match findByWs st s with
  | none => (st, [])
  | some cid =>
      match st.connections.find? (fun c => c.sender = cid || c.receiver = cid) with
      | none =>
          ({ st with clients := st.clients.eraseP (fun c => (getClient st c).ws = s) }, [])
      | some con =>
          ({ st with
              clients := st.clients.eraseP (fun c => (getClient st c).ws = s),
              connections := st.connections.eraseP
                (fun c => c.sender = cid || c.receiver = cid) },
           (if con.sender ≠ cid then
              [Action.send (getClient st con.sender).ws OutMsg.tunnel_close] else []) ++
           (if con.receiver ≠ cid then
              [Action.send (getClient st con.receiver).ws OutMsg.tunnel_close] else []) ++
           [Action.killSshd con.sshd])

/-- One engine step.  A crashed process does nothing any more. -/
def step (cfg : Config) (st : ServerState) (e : Event) : ServerState × List Action :=
  if st.crashed then (st, [])
  else
    match e with
    | .message s d => deliverMessage cfg st s d
    | .close s => handleClose st s
    | .resume pid => commitPending cfg st pid

/-- The state after processing a list of events from the initial state. -/
def runTrace (cfg : Config) (events : List Event) : ServerState :=
  events.foldl (fun st e => (step cfg st e).1) initState

/-! ## Specification-side predicates -/

/-- The port policy as §3 of the spec words it: the whitelist takes
precedence when non-empty; otherwise a non-empty blacklist denies listed
ports; otherwise every port is permitted. -/
def portAllowedSpec (c : ClientData) (p : ℤ) : Bool :=
  if c.port_whitelist ≠ [] then c.port_whitelist.contains p
  else if c.port_blacklist ≠ [] then !c.port_blacklist.contains p
  else true

/-- Which refusal message the handler sends for a denied port. -/
def policyDenyMsg (c : ClientData) (p : ℤ) : String :=
  if c.port_whitelist.length > 0 then wlDenyMsg p else blDenyMsg p

/-- The port-pair invariants claimed for live Connections: sshd ports drawn
from `OPENED_PORTS` and pairwise distinct; local ports pairwise distinct and
strictly above `max(OPENED_PORTS)`. -/
def PortsOK (cfg : Config) (st : ServerState) : Prop :=
  (∀ c ∈ st.connections, c.sshdPort ∈ cfg.OPENED_PORTS) ∧
  (st.connections.map (fun c => c.sshdPort)).Nodup ∧
  (st.connections.map (fun c => c.localPort)).Nodup ∧
  (∀ c ∈ st.connections, mathMax cfg.OPENED_PORTS < c.localPort)

/-- All sshd ports currently allocated: by live connections and by
provisionings suspended in their warm-up wait. -/
def sshdAll (st : ServerState) : List ℤ :=
  st.connections.map (fun c => c.sshdPort) ++ st.pendings.map (fun p => p.sshdPort)

def localAll (st : ServerState) : List ℤ :=
  st.connections.map (fun c => c.localPort) ++ st.pendings.map (fun p => p.localPort)

/-- Strengthened invariant, also covering suspended provisionings. -/
def AllocOK (cfg : Config) (st : ServerState) : Prop :=
  (∀ p ∈ sshdAll st, p ∈ cfg.OPENED_PORTS) ∧ (sshdAll st).Nodup ∧
  (localAll st).Nodup ∧ (∀ p ∈ localAll st, mathMax cfg.OPENED_PORTS < p)

/-- Serialization condition on a trace: every message event arrives while no
provisioning is suspended in its warm-up wait and at most one approval
listener is attached to the message socket.  (Checked stepwise, so it holds
of every prefix as well.) -/
def noOverlapFrom (cfg : Config) : ServerState → List Event → Bool
  | _, [] => true
  | st, e :: rest =>
      (match e with
       | .message s _ => st.pendings.isEmpty &&
           decide ((st.listeners.filter (fun l => l.sock = s)).length ≤ 1)
       | _ => true) && noOverlapFrom cfg (step cfg st e).1 rest

def runFrom (cfg : Config) (st : ServerState) (events : List Event) : ServerState :=
  events.foldl (fun st e => (step cfg st e).1) st

/-! ## Lemmas about the local-port loop -/

theorem nextFreeLocal_ge (used : List ℤ) (fuel : Nat) :
    ∀ cand : ℤ, cand ≤ nextFreeLocal used cand fuel := by
  induction fuel with
  | zero => intro cand; simp [nextFreeLocal]
  | succ n ih =>
      intro cand
      simp only [nextFreeLocal]
      split
      · exact le_trans (by omega) (ih (cand + 1))
      · exact le_refl _

theorem length_filter_mono {α : Type} (p q : α → Bool)
    (h : ∀ x, q x = true → p x = true) :
    ∀ l : List α, (l.filter q).length ≤ (l.filter p).length := by
  intro l
  induction l with
  | nil => simp
  | cons a t ih =>
      cases hq : q a with
      | true =>
          have hp := h a hq
          simp [List.filter_cons, hq, hp]
          omega
      | false =>
          cases hp : p a with
          | true =>
              simp [List.filter_cons, hq, hp]
              omega
          | false =>
              simp [List.filter_cons, hq, hp]
              exact ih

theorem length_filter_lt (used : List ℤ) (cand : ℤ) (h : cand ∈ used) :
    (used.filter (fun x => decide (cand + 1 ≤ x))).length <
    (used.filter (fun x => decide (cand ≤ x))).length := by
  induction used with
  | nil => cases h
  | cons y t ih =>
      have hmono := length_filter_mono (fun x => decide (cand ≤ x))
        (fun x => decide (cand + 1 ≤ x)) (fun x hx => by
          simp only [decide_eq_true_eq] at hx ⊢; omega) t
      rcases List.mem_cons.mp h with rfl | hmem
      · have h1 : (decide (cand + 1 ≤ cand)) = false := by
          simp only [decide_eq_false_iff_not]; omega
        have h2 : (decide (cand ≤ cand)) = true := by simp
        simp [List.filter_cons, h1, h2]
        omega
      · cases h1 : decide (cand + 1 ≤ y) with
        | true =>
            have h2 : decide (cand ≤ y) = true := by
              simp only [decide_eq_true_eq] at h1 ⊢; omega
            have := ih hmem
            simp [List.filter_cons, h1, h2]
            omega
        | false =>
            cases h2 : decide (cand ≤ y) with
            | true =>
                have := ih hmem
                simp [List.filter_cons, h1, h2]
                omega
            | false =>
                simp [List.filter_cons, h1, h2]
                exact ih hmem

theorem nextFreeLocal_not_mem (used : List ℤ) :
    ∀ (fuel : Nat) (cand : ℤ),
      (used.filter (fun x => decide (cand ≤ x))).length < fuel →
      nextFreeLocal used cand fuel ∉ used := by
  intro fuel
  induction fuel with
  | zero => intro cand h; omega
  | succ n ih =>
      intro cand h
      simp only [nextFreeLocal]
      split
      · rename_i hmem
        apply ih (cand + 1)
        have := length_filter_lt used cand hmem
        omega
      · assumption

theorem nextFreeLocal_spec (used : List ℤ) :
    ∀ (fuel : Nat) (cand : ℤ), ∃ k : Nat,
      nextFreeLocal used cand fuel = cand + (k : ℤ) ∧
      ∀ j : Nat, j < k → cand + (j : ℤ) ∈ used := by
  intro fuel
  induction fuel with
  | zero =>
      intro cand
      exact ⟨0, by simp [nextFreeLocal], by intro j hj; omega⟩
  | succ n ih =>
      intro cand
      simp only [nextFreeLocal]
      split
      · rename_i hmem
        obtain ⟨k, hk, hblock⟩ := ih (cand + 1)
        refine ⟨k + 1, by rw [hk]; push_cast; ring, ?_⟩
        intro j hj
        cases j with
        | zero => simpa using hmem
        | succ j' =>
            have hmem' := hblock j' (by omega)
            have harith : cand + ((j' + 1 : Nat) : ℤ) = (cand + 1) + (j' : ℤ) := by
              push_cast; ring
            rw [harith]
            exact hmem'
      · exact ⟨0, by simp, by intro j hj; omega⟩

/-! ## Shape lemmas: which parts of the state each handler touches -/

theorem heldSshd_eq_false_iff (st : ServerState) (p : ℤ) :
    heldSshd st p = false ↔ p ∉ st.connections.map (fun c => c.sshdPort) := by
  simp [heldSshd, List.any_eq_true, List.mem_map]

theorem heldLocal_eq_false_iff (st : ServerState) (p : ℤ) :
    heldLocal st p = false ↔ p ∉ st.connections.map (fun c => c.localPort) := by
  simp [heldLocal, List.any_eq_true, List.mem_map]

theorem heldLocal_eq_true_iff (st : ServerState) (p : ℤ) :
    heldLocal st p = true ↔ p ∈ st.connections.map (fun c => c.localPort) := by
  simp [heldLocal, List.any_eq_true, List.mem_map]

theorem heldSshd_eq_true_iff (st : ServerState) (p : ℤ) :
    heldSshd st p = true ↔ p ∈ st.connections.map (fun c => c.sshdPort) := by
  simp [heldSshd, List.any_eq_true, List.mem_map]

/-- A freshly allocated port pair: the sshd port is drawn from
`OPENED_PORTS` and is not held by any live connection, and the local port is
above `max(OPENED_PORTS)` and not held by any live connection. -/
def FreshAlloc (cfg : Config) (conns : List Connection) (pd : Pending) : Prop :=
  pd.sshdPort ∈ cfg.OPENED_PORTS ∧
  pd.sshdPort ∉ conns.map (fun c => c.sshdPort) ∧
  mathMax cfg.OPENED_PORTS < pd.localPort ∧
  pd.localPort ∉ conns.map (fun c => c.localPort)

theorem ccs_connections (cfg st rws src tgt fwd) :
    (createConnectionStart cfg st rws src tgt fwd).1.connections = st.connections := by
  unfold createConnectionStart
  split
  · rfl
  · split <;> rfl

theorem ccs_crashed (cfg st rws src tgt fwd) :
    (createConnectionStart cfg st rws src tgt fwd).1.crashed = st.crashed := by
  unfold createConnectionStart
  split
  · rfl
  · split <;> rfl

theorem ccs_pendings (cfg st rws src tgt fwd) :
    (createConnectionStart cfg st rws src tgt fwd).1.pendings = st.pendings ∨
    ∃ pd, (createConnectionStart cfg st rws src tgt fwd).1.pendings = st.pendings ++ [pd] ∧
      FreshAlloc cfg st.connections pd := by
  unfold createConnectionStart
  cases hfind : cfg.OPENED_PORTS.find? (fun port => !heldSshd st port) with
  | none => exact Or.inl rfl
  | some p =>
      by_cases hz : p = 0
      · simp only [hfind, hz, if_pos rfl]
        exact Or.inl rfl
      · simp only [hfind, if_neg hz]
        refine Or.inr ⟨_, rfl, ?_, ?_, ?_, ?_⟩
        · exact List.mem_of_find?_eq_some hfind
        · have hp := List.find?_some hfind
          have : heldSshd st p = false := by
            cases hh : heldSshd st p
            · rfl
            · rw [hh] at hp; exact absurd hp (by simp)
          exact (heldSshd_eq_false_iff st p).mp this
        · have hge := nextFreeLocal_ge (st.connections.map (fun c => c.localPort))
            ((st.connections.map (fun c => c.localPort)).length + 1)
            (mathMax cfg.OPENED_PORTS + 1)
          dsimp only
          omega
        · apply nextFreeLocal_not_mem
          have := List.length_filter_le
            (fun x => decide (mathMax cfg.OPENED_PORTS + 1 ≤ x))
            (st.connections.map (fun c => c.localPort))
          omega

theorem handleRegister_shape (st : ServerState) (s : Nat) (k u : String) (a : Bool)
    (wl bl : List ℤ) (ct : ClientType) :
    (handleRegister st s k u a wl bl ct).1.connections = st.connections ∧
    (handleRegister st s k u a wl bl ct).1.pendings = st.pendings ∧
    (handleRegister st s k u a wl bl ct).1.crashed = st.crashed := by
  unfold handleRegister
  split <;> exact ⟨rfl, rfl, rfl⟩

theorem connectProceed_shape (cfg : Config) (st : ServerState) (s : Nat)
    (src tgt : Nat) (port : ℤ) :
    (connectProceed cfg st s src tgt port).1.connections = st.connections ∧
    ((connectProceed cfg st s src tgt port).1.pendings = st.pendings ∨
     ∃ pd, (connectProceed cfg st s src tgt port).1.pendings = st.pendings ++ [pd] ∧
       FreshAlloc cfg st.connections pd) ∧
    (connectProceed cfg st s src tgt port).1.crashed = st.crashed := by
  by_cases h : (getClient st tgt).auto_accept = true
  · simp only [connectProceed, if_pos h]
    exact ⟨ccs_connections cfg st s src tgt port, ccs_pendings cfg st s src tgt port,
      ccs_crashed cfg st s src tgt port⟩
  · simp [connectProceed, if_neg h]

theorem handleConnectToHost_shape (cfg : Config) (st : ServerState) (s : Nat)
    (target : String) (port : ℤ) :
    (handleConnectToHost cfg st s target port).1.connections = st.connections ∧
    ((handleConnectToHost cfg st s target port).1.pendings = st.pendings ∨
     ∃ pd, (handleConnectToHost cfg st s target port).1.pendings = st.pendings ++ [pd] ∧
       FreshAlloc cfg st.connections pd) ∧
    (handleConnectToHost cfg st s target port).1.crashed = st.crashed := by
  unfold handleConnectToHost
  split
  · exact ⟨rfl, Or.inl rfl, rfl⟩
  · split
    · exact ⟨rfl, Or.inl rfl, rfl⟩
    · split
      · split
        · exact ⟨rfl, Or.inl rfl, rfl⟩
        · exact connectProceed_shape cfg st s _ _ port
      · split
        · split
          · exact ⟨rfl, Or.inl rfl, rfl⟩
          · exact connectProceed_shape cfg st s _ _ port
        · exact connectProceed_shape cfg st s _ _ port
    · exact ⟨rfl, Or.inl rfl, rfl⟩

theorem handleMessage_shape (cfg : Config) (st : ServerState) (s : Nat) (d : InData) :
    (handleMessage cfg st s d).1.connections = st.connections ∧
    ((handleMessage cfg st s d).1.pendings = st.pendings ∨
     ∃ pd, (handleMessage cfg st s d).1.pendings = st.pendings ++ [pd] ∧
       FreshAlloc cfg st.connections pd) ∧
    (handleMessage cfg st s d).1.crashed = st.crashed := by
  unfold handleMessage
  split
  · exact ⟨rfl, Or.inl rfl, rfl⟩
  · rename_i m
    by_cases hv : msgSchemaOK m = true
    · simp only [if_pos hv]
      cases m with
      | register k u a wl bl ct =>
          obtain ⟨h1, h2, h3⟩ := handleRegister_shape st s k u a wl bl ct
          exact ⟨h1, Or.inl h2, h3⟩
      | connect_to_host t p => exact handleConnectToHost_shape cfg st s t p
      | connect_accept => exact ⟨by simp, Or.inl (by simp), by simp⟩
      | connect_deny => exact ⟨by simp, Or.inl (by simp), by simp⟩
    · simp only [if_neg hv]
      exact ⟨by simp, Or.inl (by simp), by simp⟩

theorem removeListenerStep_shape (st : ServerState) (l : Listener) :
    (removeListenerStep st l).connections = st.connections ∧
    (removeListenerStep st l).pendings = st.pendings ∧
    (removeListenerStep st l).crashed = st.crashed := by
  unfold removeListenerStep
  split <;> exact ⟨rfl, rfl, rfl⟩

/-- Whether the inbound data is a well-shaped `connect_accept` (the only
message on which a listener starts a provisioning). -/
def isAccept (d : InData) : Bool :=
  match d with
  | .valid .connect_accept => true
  | _ => false

theorem runListener_no_accept (cfg : Config) (st : ServerState) (l : Listener)
    (d : InData) (hd : isAccept d = false) :
    (runListener cfg st l d).1.connections = st.connections ∧
    (runListener cfg st l d).1.pendings = st.pendings := by
  cases d with
  | malformed detail => exact ⟨rfl, rfl⟩
  | valid m =>
      by_cases hv : msgSchemaOK m = true
      · simp only [runListener, if_pos hv]
        cases m with
        | register k u a wl bl ct => exact ⟨by simp, by simp⟩
        | connect_to_host t p => exact ⟨by simp, by simp⟩
        | connect_accept => simp [isAccept] at hd
        | connect_deny =>
            exact ⟨(removeListenerStep_shape st l).1, (removeListenerStep_shape st l).2.1⟩
      · simp only [runListener, if_neg hv]
        exact ⟨by simp, by simp⟩

theorem runListeners_no_accept (cfg : Config) (ls : List Listener) (d : InData)
    (hd : isAccept d = false) :
    ∀ st : ServerState, (runListeners cfg st ls d).1.connections = st.connections ∧
      (runListeners cfg st ls d).1.pendings = st.pendings := by
  induction ls with
  | nil => intro st; exact ⟨rfl, rfl⟩
  | cons l rest ih =>
      intro st
      unfold runListeners
      split
      · exact ⟨rfl, rfl⟩
      · have h1 := runListener_no_accept cfg st l d hd
        have h2 := ih (runListener cfg st l d).1
        exact ⟨h1.1 ▸ h2.1, h1.2 ▸ h2.2⟩

/-! ## A decomposition of `find?` and its permutation consequence -/

theorem find?_decomp {α : Type} (p : α → Bool) :
    ∀ (l : List α) (a : α), l.find? p = some a →
      ∃ l1 l2, l = l1 ++ a :: l2 ∧ (∀ x ∈ l1, p x = false) ∧ p a = true := by
  intro l
  induction l with
  | nil => intro a h; cases h
  | cons x t ih =>
      intro a h
      cases hpx : p x with
      | true =>
          rw [List.find?_cons_of_pos _ hpx] at h
          cases h
          refine ⟨[], t, rfl, ?_, hpx⟩
          intro y hy
          cases hy
      | false =>
          rw [List.find?_cons_of_neg _ (by simp [hpx])] at h
          obtain ⟨l1, l2, heq, hall, hpa⟩ := ih a h
          refine ⟨x :: l1, l2, by rw [heq]; rfl, ?_, hpa⟩
          intro y hy
          rcases List.mem_cons.mp hy with rfl | hy'
          · exact hpx
          · exact hall y hy'

theorem find?_perm_cons_eraseP {α : Type} (p : α → Bool) (l : List α) (a : α)
    (h : l.find? p = some a) : l.Perm (a :: l.eraseP p) := by
  obtain ⟨l1, l2, heq, hall, hpa⟩ := find?_decomp p l a h
  subst heq
  rw [List.eraseP_append_right _ (by intro b hb; simp [hall b hb]),
      List.eraseP_cons_of_pos hpa]
  exact List.perm_middle

/-! ## Preservation of `AllocOK` by every step of a serialized trace -/

theorem AllocOK_of_perm (cfg : Config) {st st' : ServerState}
    (hs : (sshdAll st').Perm (sshdAll st)) (hl : (localAll st').Perm (localAll st))
    (h : AllocOK cfg st) : AllocOK cfg st' := by
  obtain ⟨h1, h2, h3, h4⟩ := h
  exact ⟨fun p hp => h1 p (hs.subset hp), hs.symm.nodup h2,
    hl.symm.nodup h3, fun p hp => h4 p (hl.subset hp)⟩

theorem AllocOK_of_sublist (cfg : Config) {st st' : ServerState}
    (hs : (sshdAll st').Sublist (sshdAll st)) (hl : (localAll st').Sublist (localAll st))
    (h : AllocOK cfg st) : AllocOK cfg st' := by
  obtain ⟨h1, h2, h3, h4⟩ := h
  exact ⟨fun p hp => h1 p (hs.subset hp), h2.sublist hs,
    h3.sublist hl, fun p hp => h4 p (hl.subset hp)⟩

theorem sshdAll_commit (st : ServerState) (p : Pending) (pid : Nat)
    (hfind : st.pendings.find? (fun q => q.pid = pid) = some p) :
    (sshdAll { st with
        pendings := st.pendings.eraseP (fun q => q.pid = pid),
        connections := st.connections ++
          [⟨p.sender, p.receiver, p.pid, p.sshdPort, p.localPort⟩] }).Perm (sshdAll st) := by
  have hperm := find?_perm_cons_eraseP (fun q => q.pid = pid) st.pendings p hfind
  simp only [sshdAll, List.map_append, List.map_cons, List.map_nil, List.append_assoc,
    List.singleton_append]
  exact List.Perm.append_left _ ((hperm.map (fun q : Pending => q.sshdPort)).symm)

theorem localAll_commit (st : ServerState) (p : Pending) (pid : Nat)
    (hfind : st.pendings.find? (fun q => q.pid = pid) = some p) :
    (localAll { st with
        pendings := st.pendings.eraseP (fun q => q.pid = pid),
        connections := st.connections ++
          [⟨p.sender, p.receiver, p.pid, p.sshdPort, p.localPort⟩] }).Perm (localAll st) := by
  have hperm := find?_perm_cons_eraseP (fun q => q.pid = pid) st.pendings p hfind
  simp only [localAll, List.map_append, List.map_cons, List.map_nil, List.append_assoc,
    List.singleton_append]
  exact List.Perm.append_left _ ((hperm.map (fun q : Pending => q.localPort)).symm)

theorem step_AllocOK_resume (cfg : Config) (st : ServerState) (pid : Nat)
    (h : AllocOK cfg st) : AllocOK cfg (step cfg st (Event.resume pid)).1 := by
  by_cases hcr : st.crashed
  · simpa [step, hcr] using h
  · simp only [step, if_neg hcr]
    unfold commitPending
    cases hfind : st.pendings.find? (fun p => p.pid = pid) with
    | none => exact h
    | some p =>
        exact AllocOK_of_perm cfg (sshdAll_commit st p pid hfind)
          (localAll_commit st p pid hfind) h

theorem step_AllocOK_close (cfg : Config) (st : ServerState) (s : Nat)
    (h : AllocOK cfg st) : AllocOK cfg (step cfg st (Event.close s)).1 := by
  by_cases hcr : st.crashed
  · simpa [step, hcr] using h
  · simp only [step, if_neg hcr]
    unfold handleClose
    split
    · exact h
    · split
      · exact h
      · apply AllocOK_of_sublist cfg ?_ ?_ h
        · simp only [sshdAll]
          exact List.Sublist.append
            ((List.eraseP_sublist _).map (fun c : Connection => c.sshdPort))
            (List.Sublist.refl _)
        · simp only [localAll]
          exact List.Sublist.append
            ((List.eraseP_sublist _).map (fun c : Connection => c.localPort))
            (List.Sublist.refl _)

theorem deliverMessage_fst (cfg : Config) (st : ServerState) (s : Nat) (d : InData) :
    (deliverMessage cfg st s d).1 =
      (runListeners cfg (handleMessage cfg st s d).1
        (st.listeners.filter (fun l => l.sock = s)) d).1 := rfl

theorem deliverMessage_alloc (cfg : Config) (st : ServerState) (s : Nat) (d : InData)
    (hcr : st.crashed = false) (hpend : st.pendings = [])
    (hlis : (st.listeners.filter (fun l => l.sock = s)).length ≤ 1) :
    (deliverMessage cfg st s d).1.connections = st.connections ∧
    ((deliverMessage cfg st s d).1.pendings = [] ∨
     ∃ pd, (deliverMessage cfg st s d).1.pendings = [pd] ∧
       FreshAlloc cfg st.connections pd) := by
  rw [deliverMessage_fst]
  by_cases hacc : isAccept d = true
  · have hd : d = InData.valid Msg.connect_accept := by
      cases d with
      | malformed detail => simp [isAccept] at hacc
      | valid m =>
          cases m with
          | register k u a wl bl ct => simp [isAccept] at hacc
          | connect_to_host t p => simp [isAccept] at hacc
          | connect_accept => rfl
          | connect_deny => simp [isAccept] at hacc
    subst hd
    have hmain : (handleMessage cfg st s (InData.valid Msg.connect_accept)).1 = st := rfl
    rw [hmain]
    cases hsnap : st.listeners.filter (fun l => l.sock = s) with
    | nil => exact ⟨rfl, Or.inl hpend⟩
    | cons l rest =>
        cases rest with
        | nil =>
            have h1 : (runListeners cfg st [l] (InData.valid Msg.connect_accept)).1 =
                (runListener cfg st l (InData.valid Msg.connect_accept)).1 := by
              simp [runListeners, hcr]
            rw [h1]
            have h2 : runListener cfg st l (InData.valid Msg.connect_accept) =
                createConnectionStart cfg (removeListenerStep st l)
                  l.requesterWs l.source l.target l.port := rfl
            rw [h2]
            obtain ⟨hc, hp, _⟩ := removeListenerStep_shape st l
            constructor
            · rw [ccs_connections]
              exact hc
            · rcases ccs_pendings cfg (removeListenerStep st l)
                l.requesterWs l.source l.target l.port with hnil | ⟨pd, hpd, hf⟩
              · left
                rw [hnil, hp, hpend]
              · right
                refine ⟨pd, ?_, ?_⟩
                · rw [hpd, hp, hpend]
                  rfl
                · rw [hc] at hf
                  exact hf
        | cons l2 rest2 =>
            rw [hsnap] at hlis
            simp at hlis
  · have hacc' : isAccept d = false := by
      cases hb : isAccept d
      · rfl
      · exact absurd hb hacc
    obtain ⟨hc1, hp1, _⟩ := handleMessage_shape cfg st s d
    have h2 := runListeners_no_accept cfg (st.listeners.filter (fun l => l.sock = s)) d
      hacc' (handleMessage cfg st s d).1
    constructor
    · rw [h2.1, hc1]
    · rcases hp1 with hnil | ⟨pd, hpd, hf⟩
      · left
        rw [h2.2, hnil, hpend]
      · right
        refine ⟨pd, ?_, hf⟩
        rw [h2.2, hpd, hpend]
        rfl

theorem step_AllocOK_message (cfg : Config) (st : ServerState) (s : Nat) (d : InData)
    (hpend : st.pendings = [])
    (hlis : (st.listeners.filter (fun l => l.sock = s)).length ≤ 1)
    (h : AllocOK cfg st) : AllocOK cfg (step cfg st (Event.message s d)).1 := by
  by_cases hcr : st.crashed
  · simpa [step, hcr] using h
  · simp only [step, if_neg hcr]
    have hcr' : st.crashed = false := by
      cases hb : st.crashed
      · rfl
      · exact absurd hb hcr
    obtain ⟨hc, hp⟩ := deliverMessage_alloc cfg st s d hcr' hpend hlis
    obtain ⟨h1, h2, h3, h4⟩ := h
    have hs_st : sshdAll st = st.connections.map (fun c => c.sshdPort) := by
      simp [sshdAll, hpend]
    have hl_st : localAll st = st.connections.map (fun c => c.localPort) := by
      simp [localAll, hpend]
    rcases hp with hnil | ⟨pd, hpd, hf1, hf2, hf3, hf4⟩
    · have hs' : sshdAll (deliverMessage cfg st s d).1 =
          st.connections.map (fun c => c.sshdPort) := by
        simp [sshdAll, hc, hnil]
      have hl' : localAll (deliverMessage cfg st s d).1 =
          st.connections.map (fun c => c.localPort) := by
        simp [localAll, hc, hnil]
      refine ⟨?_, ?_, ?_, ?_⟩
      · rw [hs']
        intro p hpmem
        exact h1 p (by rw [hs_st]; exact hpmem)
      · rw [hs']
        rw [hs_st] at h2
        exact h2
      · rw [hl']
        rw [hl_st] at h3
        exact h3
      · rw [hl']
        intro p hpmem
        exact h4 p (by rw [hl_st]; exact hpmem)
    · have hs' : sshdAll (deliverMessage cfg st s d).1 =
          st.connections.map (fun c => c.sshdPort) ++ [pd.sshdPort] := by
        simp [sshdAll, hc, hpd]
      have hl' : localAll (deliverMessage cfg st s d).1 =
          st.connections.map (fun c => c.localPort) ++ [pd.localPort] := by
        simp [localAll, hc, hpd]
      rw [hs_st] at h2
      rw [hl_st] at h3
      refine ⟨?_, ?_, ?_, ?_⟩
      · rw [hs']
        intro p hpmem
        rcases List.mem_append.mp hpmem with hin | hin
        · exact h1 p (by rw [hs_st]; exact hin)
        · rw [List.mem_singleton.mp hin]
          exact hf1
      · rw [hs']
        simp [List.nodup_append, h2, hf2]
      · rw [hl']
        simp [List.nodup_append, h3, hf4]
      · rw [hl']
        intro p hpmem
        rcases List.mem_append.mp hpmem with hin | hin
        · exact h4 p (by rw [hl_st]; exact hin)
        · rw [List.mem_singleton.mp hin]
          exact hf3

theorem AllocOK_init (cfg : Config) : AllocOK cfg initState := by
  refine ⟨?_, ?_, ?_, ?_⟩ <;> simp [AllocOK, sshdAll, localAll, initState]

theorem AllocOK_PortsOK (cfg : Config) (st : ServerState) (h : AllocOK cfg st) :
    PortsOK cfg st := by
  obtain ⟨h1, h2, h3, h4⟩ := h
  have hsub_s : (st.connections.map (fun c => c.sshdPort)).Sublist (sshdAll st) :=
    List.sublist_append_left _ _
  have hsub_l : (st.connections.map (fun c => c.localPort)).Sublist (localAll st) :=
    List.sublist_append_left _ _
  refine ⟨?_, ?_, ?_, ?_⟩
  · intro c hcmem
    exact h1 _ (hsub_s.subset (List.mem_map_of_mem _ hcmem))
  · exact h2.sublist hsub_s
  · exact h3.sublist hsub_l
  · intro c hcmem
    exact h4 _ (hsub_l.subset (List.mem_map_of_mem _ hcmem))

theorem runFrom_AllocOK (cfg : Config) :
    ∀ (events : List Event) (st : ServerState),
      AllocOK cfg st → noOverlapFrom cfg st events = true →
      AllocOK cfg (runFrom cfg st events) := by
  intro events
  induction events with
  | nil =>
      intro st h _
      simpa [runFrom] using h
  | cons e rest ih =>
      intro st hA hno
      unfold noOverlapFrom at hno
      rw [Bool.and_eq_true] at hno
      obtain ⟨hcond, hrest⟩ := hno
      have hstep : runFrom cfg st (e :: rest) = runFrom cfg (step cfg st e).1 rest := rfl
      rw [hstep]
      apply ih _ _ hrest
      cases e with
      | message s d =>
          simp only [Bool.and_eq_true, List.isEmpty_iff, decide_eq_true_eq] at hcond
          exact step_AllocOK_message cfg st s d hcond.1 hcond.2 hA
      | close s => exact step_AllocOK_close cfg st s hA
      | resume pid => exact step_AllocOK_resume cfg st pid hA

/-! ## Concrete configurations and traces used as evidence -/

def cfgA : Config := ⟨[7857, 7858, 7859], "forward_user"⟩

def cfgSingle : Config := ⟨[7857], "forward_user"⟩

def cfgTwo : Config := ⟨[7857, 7858], "forward_user"⟩

/-- A `register` message with empty port lists. -/
def regMsg (u : String) (aa : Bool) (ct : ClientType) : Msg :=
  Msg.register ("key_" ++ u) u aa [] [] ct

/-- The basic auto-accept scenario (spec S1): sender and receiver register,
the receiver connects, the warm-up timer fires. -/
def trHappy : List Event :=
  [Event.message 1 (InData.valid (regMsg "AAAA" true ClientType.sender)),
   Event.message 2 (InData.valid (regMsg "BBBB" true ClientType.receiver)),
   Event.message 2 (InData.valid (Msg.connect_to_host "AA" 8080)),
   Event.resume 0]

/-- Two receivers request tunnels to the same auto-accept sender while the
first provisioning is still inside its `await wait(1000)` warm-up: both
allocations read an empty connection registry and pick the same sshd port. -/
def trOverlap : List Event :=
  [Event.message 1 (InData.valid (regMsg "A" true ClientType.sender)),
   Event.message 2 (InData.valid (regMsg "B" true ClientType.receiver)),
   Event.message 3 (InData.valid (regMsg "C" true ClientType.receiver)),
   Event.message 2 (InData.valid (Msg.connect_to_host "A" 80)),
   Event.message 3 (InData.valid (Msg.connect_to_host "A" 81)),
   Event.resume 0,
   Event.resume 1]

/-! ## Claim C1 -/

/-- C1 counterexample: the pairwise-distinctness invariant of sshd ports
fails on an admissible event sequence.  In `trOverlap` the second
`connect_to_host` is processed during the first provisioning warm-up wait
(`await wait(1000)` sits between port allocation and `connections.push`),
so both live Connections end up with sshd port 7857: port allocation is not
atomic with insertion into the connection registry. -/
theorem C1_counterexample :
    ¬ ((runTrace cfgSingle trOverlap).connections.map (fun c => c.sshdPort)).Nodup := by
  decide

/-- C1 (amended): on every trace in which each message event is processed
with no provisioning suspended in its warm-up wait and with at most one
approval listener on the message socket, the invariants hold at every time:
live sshd ports are drawn from `OPENED_PORTS` and pairwise distinct, and
live local ports are pairwise distinct and strictly greater than
`max(OPENED_PORTS)`.  (The condition is checked stepwise, so every prefix of
such a trace satisfies it as well, which gives the invariant at every
intermediate state.)  Without the condition the invariant fails, because the
warm-up wait separates allocation from registry insertion. -/
theorem C1_portsInvariant (cfg : Config) (events : List Event)
    (h : noOverlapFrom cfg initState events = true) :
    PortsOK cfg (runTrace cfg events) :=
  AllocOK_PortsOK cfg _ (runFrom_AllocOK cfg events initState (AllocOK_init cfg) h)

/-- Witness for `C1_portsInvariant` at the concrete scenario S1. -/
theorem C1_portsInvariant_witness : PortsOK cfgA (runTrace cfgA trHappy) :=
  C1_portsInvariant cfgA trHappy (by decide)

/-! ## Claim C3 -/

/-- C3: the allocator picks the first port of `OPENED_PORTS` not held by a
live Connection; when every opened port is held it answers
`response(false, "Server is full")` and changes nothing (no Connection, no
pending provisioning, no file, no spawn); and the local port is
`max(OPENED_PORTS) + 1` bumped by 1 exactly past the values held by live
Connections.  The hypothesis that opened ports are positive reflects their
being TCP ports; it is needed because `if (!sshdPort)` would also treat a
configured port `0` as unavailable. -/
theorem C3_allocator (cfg : Config) (st : ServerState) (rws src tgt : Nat) (fwd : ℤ)
    (hpos : ∀ p ∈ cfg.OPENED_PORTS, 0 < p) :
    ((∀ p ∈ cfg.OPENED_PORTS, heldSshd st p = true) →
        createConnectionStart cfg st rws src tgt fwd =
          (st, [wsSendResponse rws false (some "Server is full")])) ∧
    (∀ q ∈ cfg.OPENED_PORTS, heldSshd st q = false →
        ∃ pd : Pending,
          (createConnectionStart cfg st rws src tgt fwd).1.pendings =
            st.pendings ++ [pd] ∧
          pd.sshdPort ∈ cfg.OPENED_PORTS ∧
          heldSshd st pd.sshdPort = false ∧
          (∃ l1 l2, cfg.OPENED_PORTS = l1 ++ pd.sshdPort :: l2 ∧
            ∀ p ∈ l1, heldSshd st p = true) ∧
          (∃ k : Nat, pd.localPort = mathMax cfg.OPENED_PORTS + 1 + (k : ℤ) ∧
            heldLocal st pd.localPort = false ∧
            ∀ j : Nat, j < k →
              heldLocal st (mathMax cfg.OPENED_PORTS + 1 + (j : ℤ)) = true)) := by
  constructor
  · intro hall
    have hnone : cfg.OPENED_PORTS.find? (fun port => !heldSshd st port) = none := by
      rw [List.find?_eq_none]
      intro x hx
      simp [hall x hx]
    unfold createConnectionStart
    rw [hnone]
  · intro q hq hfree
    have hsome : (cfg.OPENED_PORTS.find? (fun port => !heldSshd st port)).isSome := by
      rw [List.find?_isSome]
      exact ⟨q, hq, by simp [hfree]⟩
    obtain ⟨p, hp⟩ := Option.isSome_iff_exists.mp hsome
    have hmem : p ∈ cfg.OPENED_PORTS := List.mem_of_find?_eq_some hp
    have hpfree : heldSshd st p = false := by
      have hps := List.find?_some hp
      cases hb : heldSshd st p
      · rfl
      · rw [hb] at hps
        simp at hps
    have hpz : ¬(p = 0) := by
      have := hpos p hmem
      omega
    obtain ⟨l1, l2, hdec, hl1, _⟩ := find?_decomp _ _ _ hp
    obtain ⟨k, hk, hblock⟩ := nextFreeLocal_spec
      (st.connections.map (fun c => c.localPort))
      ((st.connections.map (fun c => c.localPort)).length + 1)
      (mathMax cfg.OPENED_PORTS + 1)
    have hnotmem : nextFreeLocal (st.connections.map (fun c => c.localPort))
        (mathMax cfg.OPENED_PORTS + 1)
        ((st.connections.map (fun c => c.localPort)).length + 1) ∉
        st.connections.map (fun c => c.localPort) := by
      apply nextFreeLocal_not_mem
      have := List.length_filter_le (fun x => decide (mathMax cfg.OPENED_PORTS + 1 ≤ x))
        (st.connections.map (fun c => c.localPort))
      omega
    have hl1' : ∀ p' ∈ l1, heldSshd st p' = true := by
      intro p' hp'
      have hx := hl1 p' hp'
      cases hb : heldSshd st p'
      · rw [hb] at hx
        simp at hx
      · rfl
    unfold createConnectionStart
    simp only [hp]
    rw [if_neg hpz]
    refine ⟨_, rfl, hmem, hpfree, ⟨l1, l2, hdec, hl1'⟩, ⟨k, ?_, ?_, ?_⟩⟩
    · exact hk
    · rw [heldLocal_eq_false_iff]
      exact hnotmem
    · intro j hj
      rw [heldLocal_eq_true_iff]
      exact hblock j hj

/-- A state with one live connection occupying the only opened port 7857
(spec scenario S5). -/
def stFull : ServerState :=
  { initState with connections := [⟨0, 1, 0, 7857, 7858⟩] }

/-- Witness for `C3_allocator`: with `OPENED_PORTS = [7857]` and a live
connection holding 7857, a further provisioning answers
`response(false, "Server is full")` and leaves the state unchanged. -/
theorem C3_allocator_witness :
    createConnectionStart cfgSingle stFull 9 2 0 80 =
      (stFull, [wsSendResponse 9 false (some "Server is full")]) :=
  (C3_allocator cfgSingle stFull 9 2 0 80 (by decide)).1 (by decide)

/-! ## Claim C5 -/

/-- C5: the target port policy, with the whitelist taking precedence over
the blacklist.  Under the resolution hypotheses (the requester socket is
bound to a client and the target search returns exactly one sender), a port
denied by `portAllowedSpec` yields exactly one `response(success=false)` to
the requester and leaves the state completely unchanged — in particular no
child sshd is spawned, no provisioning is suspended and no approval
listener is installed, so no child sshd can ever be spawned for this
request later.  A permitted port continues to the auto-accept/approval
stage (`connectProceed`) — even when the port is also on the blacklist. -/
theorem handleConnect_policy (cfg : Config) (st : ServerState) (s : Nat) (target : String)
    (port : ℤ) (src tgt : Nat)
    (hsrc : findByWs st s = some src)
    (hsearch : searchSenders st target = [tgt]) :
    (portAllowedSpec (getClient st tgt) port = false →
        handleConnectToHost cfg st s target port =
          (st, [wsSendResponse s false (some (policyDenyMsg (getClient st tgt) port))])) ∧
    (portAllowedSpec (getClient st tgt) port = true →
        handleConnectToHost cfg st s target port =
          connectProceed cfg st s src tgt port) := by
  unfold handleConnectToHost
  simp only [hsrc, hsearch]
  constructor
  · intro hdeny
    unfold portAllowedSpec at hdeny
    by_cases hwl : (getClient st tgt).port_whitelist = []
    · rw [if_neg (by simp [hwl])] at hdeny
      by_cases hbl : (getClient st tgt).port_blacklist = []
      · rw [if_neg (by simp [hbl])] at hdeny
        cases hdeny
      · rw [if_pos hbl] at hdeny
        have hcont : (getClient st tgt).port_blacklist.contains port = true := by
          cases hb : (getClient st tgt).port_blacklist.contains port
          · rw [hb] at hdeny
            cases hdeny
          · rfl
        rw [if_neg (by simp [hwl]), if_pos (List.length_pos.mpr hbl), if_pos hcont]
        unfold policyDenyMsg
        rw [if_neg (by simp [hwl])]
    · rw [if_pos hwl] at hdeny
      rw [if_pos (by simpa using List.length_pos.mpr hwl), if_pos (by simpa using hdeny)]
      unfold policyDenyMsg
      rw [if_pos (by simpa using List.length_pos.mpr hwl)]
  · intro hallow
    unfold portAllowedSpec at hallow
    by_cases hwl : (getClient st tgt).port_whitelist = []
    · rw [if_neg (by simp [hwl])] at hallow
      rw [if_neg (by simp [hwl])]
      by_cases hbl : (getClient st tgt).port_blacklist = []
      · rw [if_neg (by simp [hbl])]
      · rw [if_pos hbl] at hallow
        have hcont : (getClient st tgt).port_blacklist.contains port = false := by
          cases hb : (getClient st tgt).port_blacklist.contains port
          · rfl
          · rw [hb] at hallow
            cases hallow
        rw [if_pos (List.length_pos.mpr hbl), if_neg (by simpa using hcont)]
    · rw [if_pos hwl] at hallow
      rw [if_pos (by simpa using List.length_pos.mpr hwl), if_neg (by simpa using hallow)]

/-- C5: statement of `handleConnect_policy` as the claim theorem — the
whitelist takes precedence over the blacklist, denial sends exactly one
failure response and leaves the state unchanged (so no sshd is ever
spawned for the request), and a whitelisted port proceeds even when
blacklisted. -/
theorem C5_policy (cfg : Config) (st : ServerState) (s : Nat) (target : String)
    (port : ℤ) (src tgt : Nat)
    (hsrc : findByWs st s = some src)
    (hsearch : searchSenders st target = [tgt]) :
    (portAllowedSpec (getClient st tgt) port = false →
        handleConnectToHost cfg st s target port =
          (st, [wsSendResponse s false (some (policyDenyMsg (getClient st tgt) port))])) ∧
    (portAllowedSpec (getClient st tgt) port = true →
        handleConnectToHost cfg st s target port =
          connectProceed cfg st s src tgt port) :=
  handleConnect_policy cfg st s target port src tgt hsrc hsearch

/-- A state with a registered sender whose whitelist is `[22, 80]`
(spec scenario S3) and a registered receiver. -/
def stWhitelist : ServerState :=
  { initState with
      heap := [⟨1, "AAAA", "key_S", true, [22, 80], [], ClientType.sender⟩,
               ⟨2, "BBBB", "key_R", true, [], [], ClientType.receiver⟩],
      clients := [0, 1] }

/-- Witness for `C5_policy`: requesting port 8080 from a sender
whitelisting only 22 and 80 yields a single failure response and leaves the
state unchanged (no spawn, no pending, no listener). -/
theorem C5_policy_witness :
    handleConnectToHost cfgA stWhitelist 2 "AA" 8080 =
      (stWhitelist,
       [wsSendResponse 2 false (some (policyDenyMsg (getClient stWhitelist 0) 8080))]) :=
  (C5_policy cfgA stWhitelist 2 "AA" 8080 1 0 (by decide) (by decide)).1 (by decide)

/-! ## Claim C4 -/

/-- Socket 1 registers uuid "A" with whitelist `[22]`, auto_accept true and
key "k1"; then socket 2 re-registers the same uuid with whitelist `[80]`,
auto_accept false and key "k2". -/
def trRereg : List Event :=
  [Event.message 1 (InData.valid (Msg.register "k1" "A" true [22] [] ClientType.sender)),
   Event.message 2 (InData.valid (Msg.register "k2" "A" false [80] [] ClientType.sender))]

/-- C4 counterexample: a repeat `register` with an existing uuid replaces
only the socket.  After `trRereg` the single registry entry has the new
socket 2 but still the original whitelist `[22]`, auto_accept `true` and
ssh key "k1" — the new policy fields `[80]`, `false`, "k2" were *not*
written, refuting "overwrites the existing entry's socket and policy
fields". -/
theorem C4_counterexample :
    (runTrace cfgA trRereg).clients = [0] ∧
    (getClient (runTrace cfgA trRereg) 0).ws = 2 ∧
    (getClient (runTrace cfgA trRereg) 0).port_whitelist = [22] ∧
    (getClient (runTrace cfgA trRereg) 0).auto_accept = true ∧
    (getClient (runTrace cfgA trRereg) 0).ssh_key = "k1" := by
  decide

/-- C4 (amended): a `register` whose uuid is already in the registry
appends nothing (the clients list is unchanged, hence the registry size is
unchanged), answers `response(success=true)`, overwrites *only* the `ws`
field of the existing client object, and leaves every other heap entry
untouched. -/
theorem C4_reregister (st : ServerState) (s : Nat) (k u : String) (a : Bool)
    (wl bl : List ℤ) (ct : ClientType) (cid : Nat)
    (hfind : st.clients.find? (fun c => (getClient st c).uuid = u) = some cid) :
    (handleRegister st s k u a wl bl ct).1.clients = st.clients ∧
    (handleRegister st s k u a wl bl ct).2 = [Action.send s (OutMsg.response true none)] ∧
    (∀ j, j ≠ cid → (handleRegister st s k u a wl bl ct).1.heap.getD j default =
        st.heap.getD j default) ∧
    (cid < st.heap.length →
        getClient (handleRegister st s k u a wl bl ct).1 cid =
          { getClient st cid with ws := s }) := by
  unfold handleRegister
  simp only [hfind]
  refine ⟨by simp, by simp, ?_, ?_⟩
  · intro j hj
    show (st.heap.set cid _).getD j default = st.heap.getD j default
    rw [List.getD_eq_getElem?_getD, List.getElem?_set_ne (Ne.symm hj),
      ← List.getD_eq_getElem?_getD]
  · intro hlt
    show (st.heap.set cid _).getD cid default = { getClient st cid with ws := s }
    rw [List.getD_eq_getElem?_getD, List.getElem?_set_eq hlt]
    rfl

/-- A registry with one client: uuid "A", socket 1, whitelist `[22]`. -/
def stOne : ServerState :=
  { initState with
      heap := [⟨1, "A", "k1", true, [22], [], ClientType.sender⟩],
      clients := [0] }

/-- Witness for `C4_reregister`: re-registering uuid "A" from socket 2
rebinds the existing entry to socket 2 and keeps all its other fields. -/
theorem C4_reregister_witness :
    getClient (handleRegister stOne 2 "k2" "A" false [80] [] ClientType.sender).1 0 =
      { getClient stOne 0 with ws := 2 } :=
  (C4_reregister stOne 2 "k2" "A" false [80] [] ClientType.sender 0
    (by decide)).2.2.2 (by decide)

/-! ## Claim C2 -/

/-- Two receivers "B" and "C" each obtain a tunnel to the auto-accept
sender "A" (ports 7857 and 7858, serialized provisioning), then the
sender's socket 1 closes. -/
def trTwoConns : List Event :=
  [Event.message 1 (InData.valid (regMsg "A" true ClientType.sender)),
   Event.message 2 (InData.valid (regMsg "B" true ClientType.receiver)),
   Event.message 3 (InData.valid (regMsg "C" true ClientType.receiver)),
   Event.message 2 (InData.valid (Msg.connect_to_host "A" 80)),
   Event.resume 0,
   Event.message 3 (InData.valid (Msg.connect_to_host "A" 81)),
   Event.resume 1]

/-- C2 counterexample: after the sender's socket closes, the close handler
has removed only the *first* Connection of the sender (`findIndex` finds at
most one); the second live Connection still references the removed client 0,
and no authorized-keys file was deleted (the close handler never touches
them).  This refutes "removes every Connection in which that Client
participates ... removes the ephemeral authorized-keys script file ... no
Connection references the closed Client". -/
theorem C2_counterexample :
    (runTrace cfgTwo (trTwoConns ++ [Event.close 1])).clients = [1, 2] ∧
    (runTrace cfgTwo (trTwoConns ++ [Event.close 1])).connections =
      [⟨0, 2, 1, 7858, 7860⟩] ∧
    (runTrace cfgTwo (trTwoConns ++ [Event.close 1])).files = [7858, 7857] := by
  decide

/-- C2 (amended): when the socket of a registered Client closes, the first
registry entry bound to that socket is removed (heap objects, files,
pendings and listeners are untouched); if the Client participates in no
Connection nothing else happens; otherwise exactly the *first* such
Connection is removed, one `tunnel_close` is sent to each of its peers
other than the closing client, and its child sshd is killed.  The
ephemeral authorized-keys file is not removed (`files` is unchanged), and
any further Connections of the same client remain in the registry. -/
theorem handleClose_spec (st : ServerState) (s : Nat) (cid : Nat)
    (hfind : findByWs st s = some cid) :
    (handleClose st s).1.clients =
        st.clients.eraseP (fun c => (getClient st c).ws = s) ∧
    (handleClose st s).1.heap = st.heap ∧
    (handleClose st s).1.files = st.files ∧
    (handleClose st s).1.pendings = st.pendings ∧
    (handleClose st s).1.listeners = st.listeners ∧
    (st.connections.find? (fun c => c.sender = cid || c.receiver = cid) = none →
        (handleClose st s).1.connections = st.connections ∧ (handleClose st s).2 = []) ∧
    (∀ con, st.connections.find? (fun c => c.sender = cid || c.receiver = cid) = some con →
        (handleClose st s).1.connections =
          st.connections.eraseP (fun c => c.sender = cid || c.receiver = cid) ∧
        (handleClose st s).2 =
          (if con.sender ≠ cid then
            [Action.send (getClient st con.sender).ws OutMsg.tunnel_close] else []) ++
          (if con.receiver ≠ cid then
            [Action.send (getClient st con.receiver).ws OutMsg.tunnel_close] else []) ++
          [Action.killSshd con.sshd]) := by
  unfold handleClose
  simp only [hfind]
  cases hfc : st.connections.find? (fun c => c.sender = cid || c.receiver = cid) with
  | none =>
      refine ⟨rfl, rfl, rfl, rfl, rfl, fun _ => ⟨rfl, rfl⟩, ?_⟩
      intro con hcon
      exact absurd hcon (by simp)
  | some con =>
      refine ⟨rfl, rfl, rfl, rfl, rfl, fun h => absurd h (by simp), ?_⟩
      intro con' hcon
      have : con = con' := by
        injection hcon
      subst this
      exact ⟨rfl, rfl⟩

/-- C2 (amended), as the claim theorem: see `handleClose_spec`. -/
theorem C2_close (st : ServerState) (s : Nat) (cid : Nat)
    (hfind : findByWs st s = some cid) :
    (handleClose st s).1.clients =
        st.clients.eraseP (fun c => (getClient st c).ws = s) ∧
    (handleClose st s).1.heap = st.heap ∧
    (handleClose st s).1.files = st.files ∧
    (handleClose st s).1.pendings = st.pendings ∧
    (handleClose st s).1.listeners = st.listeners ∧
    (st.connections.find? (fun c => c.sender = cid || c.receiver = cid) = none →
        (handleClose st s).1.connections = st.connections ∧ (handleClose st s).2 = []) ∧
    (∀ con, st.connections.find? (fun c => c.sender = cid || c.receiver = cid) = some con →
        (handleClose st s).1.connections =
          st.connections.eraseP (fun c => c.sender = cid || c.receiver = cid) ∧
        (handleClose st s).2 =
          (if con.sender ≠ cid then
            [Action.send (getClient st con.sender).ws OutMsg.tunnel_close] else []) ++
          (if con.receiver ≠ cid then
            [Action.send (getClient st con.receiver).ws OutMsg.tunnel_close] else []) ++
          [Action.killSshd con.sshd]) :=
  handleClose_spec st s cid hfind

/-- Witness for `C2_close`: at the state reached by `trTwoConns`, closing
the sender socket 1 leaves the authorized-keys files untouched. -/
theorem C2_close_witness :
    (handleClose (runTrace cfgTwo trTwoConns) 1).1.files =
      (runTrace cfgTwo trTwoConns).files :=
  (C2_close (runTrace cfgTwo trTwoConns) 1 0 (by decide)).2.2.1

/-! ## Claim C7 -/

/-- Sender "A" registers with `auto_accept = false`; receiver "B" requests
a tunnel, so the engine installs an approval listener on the sender socket 1
and sends `connect_confirm`. -/
def trApproval : List Event :=
  [Event.message 1 (InData.valid (regMsg "A" false ClientType.sender)),
   Event.message 2 (InData.valid (regMsg "B" true ClientType.receiver)),
   Event.message 2 (InData.valid (Msg.connect_to_host "A" 80))]

/-- C7 failing input: while an approval listener is installed on socket 1,
a malformed message arrives on that socket.  The main handler's try/catch
answers `response(false, detail)` as the claim demands — but the approval
listener then calls `messagesSchema.parse` outside any try/catch, the
exception goes uncaught, and the broker process dies (`crashed`).  The
protocol error is therefore fatal, contradicting the claim; the spec is the
evident intent (the main handler catches exactly these errors) and the
missing try/catch in the listener is the bug. -/
theorem C7_crash :
    (runTrace cfgA trApproval).listeners ≠ [] ∧
    (step cfgA (runTrace cfgA trApproval) (Event.message 1 (InData.malformed "bad"))).2 =
      [wsSendResponse 1 false (some "bad"), Action.crash] ∧
    (step cfgA (runTrace cfgA trApproval) (Event.message 1 (InData.malformed "bad"))).1.crashed
      = true := by
  decide

/-! ## Claim C8 -/

/-- Socket 2 registers as a *sender* with uuid "B", then sends
`connect_to_host` for the auto-accept sender "A"; after the warm-up the
tunnel exists, with the requesting sender installed as the Connection's
receiver. -/
def trSenderTunnel : List Event :=
  [Event.message 1 (InData.valid (regMsg "A" true ClientType.sender)),
   Event.message 2 (InData.valid (regMsg "B" true ClientType.sender)),
   Event.message 2 (InData.valid (Msg.connect_to_host "A" 80)),
   Event.resume 0]

/-- C8 counterexample: a `connect_to_host` sent by a Client registered as a
*sender* (client 1 on socket 2) leads to a live tunnel — the handler never
checks the requester's `client_type`, refuting "only a receiver can take
the connect_to_host transition" and "a connect_to_host sent by a sender
does not lead to a tunnel". -/
theorem C8_counterexample :
    (getClient (runTrace cfgA trSenderTunnel) 1).client_type = ClientType.sender ∧
    (runTrace cfgA trSenderTunnel).connections = [⟨0, 1, 0, 7857, 7860⟩] := by
  decide

/-- C8 (amended): any registered Client — sender or receiver alike — can
take the `connect_to_host` transition toward provisioning: under the
resolution, policy and auto-accept hypotheses the handler starts
`createConnection`, with no hypothesis whatsoever on the *requester's*
`client_type`. -/
theorem C8_sourceTypeIgnored (cfg : Config) (st : ServerState) (s : Nat)
    (target : String) (port : ℤ) (src tgt : Nat)
    (hsrc : findByWs st s = some src)
    (hsearch : searchSenders st target = [tgt])
    (hallow : portAllowedSpec (getClient st tgt) port = true)
    (haa : (getClient st tgt).auto_accept = true) :
    handleConnectToHost cfg st s target port =
      createConnectionStart cfg st s src tgt port := by
  rw [(handleConnect_policy cfg st s target port src tgt hsrc hsearch).2 hallow]
  unfold connectProceed
  rw [if_pos haa]

/-- Witness for `C8_sourceTypeIgnored` at the state of `trSenderTunnel`
after both registrations: the requester (client 1) is a sender, and the
transition still reaches `createConnectionStart`. -/
theorem C8_sourceTypeIgnored_witness :
    handleConnectToHost cfgA (runTrace cfgA (trSenderTunnel.take 2)) 2 "A" 80 =
      createConnectionStart cfgA (runTrace cfgA (trSenderTunnel.take 2)) 2 1 0 80 :=
  C8_sourceTypeIgnored cfgA (runTrace cfgA (trSenderTunnel.take 2)) 2 "A" 80 1 0
    (by decide) (by decide) (by decide) (by decide)

/-! ## Claim C9 -/

/-- A message event on a socket with no attached approval listeners is just
the main handler. -/
theorem deliverMessage_no_listeners (cfg : Config) (st : ServerState) (s : Nat)
    (d : InData) (hlis : st.listeners.filter (fun l => l.sock = s) = []) :
    deliverMessage cfg st s d = handleMessage cfg st s d := by
  simp [deliverMessage, hlis, runListeners]

/-- C9 counterexample: a well-formed `connect_accept` (and `connect_deny`)
from an unregistered socket produces *no* output at all — the main
handler's if/else chain has no branch for these types — refuting "every
other well-formed message yields a response with success=false". -/
theorem C9_counterexample :
    (step cfgA initState (Event.message 5 (InData.valid Msg.connect_accept))).2 = [] ∧
    (step cfgA initState (Event.message 5 (InData.valid Msg.connect_deny))).2 = [] := by
  decide

/-- C9 (amended): on a socket not bound to any Client (and carrying no
stale approval listener), `register` is accepted with
`response(success=true)`; `connect_to_host` yields
`response(false, "you are not registered")`; but `connect_accept` and
`connect_deny` are silently ignored — no response is sent. -/
theorem C9_unregistered (cfg : Config) (st : ServerState) (s : Nat)
    (hcr : st.crashed = false)
    (hun : findByWs st s = none)
    (hlis : st.listeners.filter (fun l => l.sock = s) = []) :
    (∀ (target : String) (port : ℤ), portOK port = true →
        step cfg st (Event.message s (InData.valid (Msg.connect_to_host target port))) =
          (st, [wsSendResponse s false (some "you are not registered")])) ∧
    step cfg st (Event.message s (InData.valid Msg.connect_accept)) = (st, []) ∧
    step cfg st (Event.message s (InData.valid Msg.connect_deny)) = (st, []) ∧
    (∀ (k u : String) (a : Bool) (wl bl : List ℤ) (ct : ClientType),
        msgSchemaOK (Msg.register k u a wl bl ct) = true →
        (step cfg st (Event.message s (InData.valid (Msg.register k u a wl bl ct)))).2 =
          [Action.send s (OutMsg.response true none)]) := by
  have hstep : ∀ d, step cfg st (Event.message s d) = deliverMessage cfg st s d := by
    intro d
    simp [step, hcr]
  refine ⟨?_, ?_, ?_, ?_⟩
  · intro target port hport
    rw [hstep, deliverMessage_no_listeners cfg st s _ hlis]
    have hv : msgSchemaOK (Msg.connect_to_host target port) = true := hport
    simp only [handleMessage]
    rw [if_pos hv]
    show handleConnectToHost cfg st s target port = _
    unfold handleConnectToHost
    rw [hun]
  · rw [hstep, deliverMessage_no_listeners cfg st s _ hlis]
    rfl
  · rw [hstep, deliverMessage_no_listeners cfg st s _ hlis]
    rfl
  · intro k u a wl bl ct hreg
    rw [hstep, deliverMessage_no_listeners cfg st s _ hlis]
    simp only [handleMessage]
    rw [if_pos hreg]
    show (handleRegister st s k u a wl bl ct).2 = _
    unfold handleRegister
    cases hf : st.clients.find? (fun cid => (getClient st cid).uuid = u) <;> simp [hf]

/-- Witness for `C9_unregistered`: on the empty initial state, socket 5 is
unregistered; its `connect_to_host` gets the failure response. -/
theorem C9_unregistered_witness :
    step cfgA initState (Event.message 5 (InData.valid (Msg.connect_to_host "AA" 80))) =
      (initState, [wsSendResponse 5 false (some "you are not registered")]) :=
  (C9_unregistered cfgA initState 5 (by decide) (by decide) (by decide)).1 "AA" 80 (by decide)

/-! ## Claim C10 -/

theorem find?_congr_pred {α : Type} (p q : α → Bool) :
    ∀ l : List α, (∀ x ∈ l, p x = q x) → l.find? p = l.find? q := by
  intro l
  induction l with
  | nil => intro _; rfl
  | cons x t ih =>
      intro h
      have hx := h x (by simp)
      cases hq : q x with
      | true =>
          rw [List.find?_cons_of_pos _ (hx.trans hq), List.find?_cons_of_pos _ hq]
      | false =>
          rw [List.find?_cons_of_neg _ (by simp [hx, hq]),
              List.find?_cons_of_neg _ (by simp [hq])]
          exact ih (fun y hy => h y (by simp [hy]))

theorem eraseP_congr_pred {α : Type} (p q : α → Bool) :
    ∀ l : List α, (∀ x ∈ l, p x = q x) → l.eraseP p = l.eraseP q := by
  intro l
  induction l with
  | nil => intro _; rfl
  | cons x t ih =>
      intro h
      have hx := h x (by simp)
      cases hq : q x with
      | true =>
          rw [List.eraseP_cons_of_pos (hx.trans hq), List.eraseP_cons_of_pos hq]
      | false =>
          rw [List.eraseP_cons_of_neg (by simp [hx, hq]),
              List.eraseP_cons_of_neg (by simp [hq])]
          rw [ih (fun y hy => h y (by simp [hy]))]

/-- C10: a `register` with a fresh uuid from a socket that is already bound
to a Client appends a *second* Client entry on the same socket; the
by-socket lookup (used by the `connect_to_host` source resolution and by
the close handler) still resolves to the earliest entry; and when the
socket closes, only that earliest entry is removed — the later entry stays
in the registry, still pointing at the now-closed socket. -/
theorem C10_doubleRegister (cfg : Config) (st : ServerState) (s : Nat)
    (k u : String) (a : Bool) (wl bl : List ℤ) (ct : ClientType) (cid : Nat)
    (hcr : st.crashed = false)
    (hwf : ∀ c ∈ st.clients, c < st.heap.length)
    (hnd : st.clients.Nodup)
    (hsrc : findByWs st s = some cid)
    (hfresh : ∀ c ∈ st.clients, (getClient st c).uuid ≠ u)
    (hval : msgSchemaOK (Msg.register k u a wl bl ct) = true)
    (hlis : st.listeners.filter (fun l => l.sock = s) = []) :
    let st1 := (step cfg st (Event.message s (InData.valid (Msg.register k u a wl bl ct)))).1
    let st2 := (step cfg st1 (Event.close s)).1
    st1.clients = st.clients ++ [st.heap.length] ∧
    getClient st1 st.heap.length = ⟨s, u, k, a, wl, bl, ct⟩ ∧
    findByWs st1 s = some cid ∧
    st.heap.length ∈ st2.clients ∧
    getClient st2 st.heap.length = ⟨s, u, k, a, wl, bl, ct⟩ ∧
    cid ∉ st2.clients ∧
    st2.clients.length + 1 = st1.clients.length := by
  intro st1 st2
  have hsrc' : st.clients.find? (fun c => decide ((getClient st c).ws = s)) = some cid :=
    hsrc
  have hcidmem : cid ∈ st.clients := List.mem_of_find?_eq_some hsrc'
  have hpcid := List.find?_some hsrc'
  have hfnone : st.clients.find? (fun c => (getClient st c).uuid = u) = none := by
    rw [List.find?_eq_none]
    intro x hx
    simp [hfresh x hx]
  have hst1 : st1 = { st with
      heap := st.heap ++ [⟨s, u, k, a, wl, bl, ct⟩],
      clients := st.clients ++ [st.heap.length] } := by
    show (step cfg st (Event.message s (InData.valid (Msg.register k u a wl bl ct)))).1 = _
    have h1 : step cfg st (Event.message s (InData.valid (Msg.register k u a wl bl ct))) =
        deliverMessage cfg st s (InData.valid (Msg.register k u a wl bl ct)) := by
      simp [step, hcr]
    rw [h1, deliverMessage_no_listeners cfg st s _ hlis]
    simp only [handleMessage]
    rw [if_pos hval]
    show (handleRegister st s k u a wl bl ct).1 = _
    unfold handleRegister
    rw [hfnone]
  have hc1 : st1.clients = st.clients ++ [st.heap.length] := by rw [hst1]
  have hc2 : getClient st1 st.heap.length = ⟨s, u, k, a, wl, bl, ct⟩ := by
    rw [hst1]
    show (st.heap ++ [(⟨s, u, k, a, wl, bl, ct⟩ : ClientData)]).getD st.heap.length default = _
    rw [List.getD_append_right _ _ _ _ (le_refl _)]
    simp
  have hgc : ∀ c, c < st.heap.length → getClient st1 c = getClient st c := by
    intro c hcl
    rw [hst1]
    show (st.heap ++ [(⟨s, u, k, a, wl, bl, ct⟩ : ClientData)]).getD c default =
      st.heap.getD c default
    rw [List.getD_append _ _ _ _ hcl]
  have hfind1 : st.clients.find? (fun c => (getClient st1 c).ws = s) = some cid := by
    rw [find?_congr_pred _ _ st.clients (fun x hx => by rw [hgc x (hwf x hx)])]
    exact hsrc
  have hc3 : findByWs st1 s = some cid := by
    unfold findByWs
    rw [hc1, List.find?_append, hfind1]
    rfl
  have hcrash1 : st1.crashed = false := by
    rw [hst1]
    exact hcr
  have hclose : step cfg st1 (Event.close s) = handleClose st1 s := by
    simp [step, hcrash1]
  have hpcid1 : (fun c => decide ((getClient st1 c).ws = s)) cid = true := by
    have := hgc cid (hwf cid hcidmem)
    simp only [this]
    exact hpcid
  have hst2c : st2.clients =
      st.clients.eraseP (fun c => (getClient st c).ws = s) ++ [st.heap.length] := by
    show (step cfg st1 (Event.close s)).1.clients = _
    rw [hclose, (handleClose_spec st1 s cid hc3).1, hc1,
      @List.eraseP_append_left Nat (fun c => decide ((getClient st1 c).ws = s)) cid
        hpcid1 st.clients [st.heap.length] hcidmem]
    congr 1
    exact eraseP_congr_pred _ _ st.clients (fun x hx => by rw [hgc x (hwf x hx)])
  have hheap2 : st2.heap = st1.heap := by
    show (step cfg st1 (Event.close s)).1.heap = st1.heap
    rw [hclose]
    exact (handleClose_spec st1 s cid hc3).2.1
  obtain ⟨l1, l2, hdecomp, hl1, hpc⟩ :=
    find?_decomp (fun c => decide ((getClient st c).ws = s)) st.clients cid hsrc'
  have herase : st.clients.eraseP (fun c => (getClient st c).ws = s) = l1 ++ l2 := by
    rw [hdecomp, List.eraseP_append_right _ (by intro b hb; simp [hl1 b hb])]
    congr 1
    rw [List.eraseP_cons]
    simp [hpc]
  have hcid_notin : cid ∉ l1 ++ l2 := by
    have hnd' := hnd
    rw [hdecomp, List.nodup_middle] at hnd'
    exact (List.nodup_cons.mp hnd').1
  have hcid_ne : cid ≠ st.heap.length := by
    have := hwf cid hcidmem
    omega
  refine ⟨hc1, hc2, hc3, ?_, ?_, ?_, ?_⟩
  · rw [hst2c]
    simp
  · rw [show getClient st2 st.heap.length = getClient st1 st.heap.length from by
      unfold getClient; rw [hheap2]]
    exact hc2
  · have hnotin1 : cid ∉ l1 := fun h => hcid_notin (List.mem_append.mpr (Or.inl h))
    have hnotin2 : cid ∉ l2 := fun h => hcid_notin (List.mem_append.mpr (Or.inr h))
    rw [hst2c, herase]
    simp only [List.mem_append, List.mem_singleton]
    rintro ((h1 | h2) | h3)
    · exact hnotin1 h1
    · exact hnotin2 h2
    · exact hcid_ne h3
  · rw [hst2c, herase, hc1, hdecomp]
    simp [List.length_append]
    omega

/-- A one-client state like `stOne`, used to witness the double
registration: socket 1 is bound to client 0 (uuid "A"); registering the
fresh uuid "B" from the same socket then closing it leaves entry 1 (uuid
"B") in the registry, bound to the closed socket. -/
theorem C10_doubleRegister_witness :
    getClient (step cfgA
      (step cfgA stOne (Event.message 1 (InData.valid (Msg.register "k2" "B" true [] []
        ClientType.receiver)))).1 (Event.close 1)).1 1 =
      ⟨1, "B", "k2", true, [], [], ClientType.receiver⟩ :=
  (C10_doubleRegister cfgA stOne 1 "k2" "B" true [] [] ClientType.receiver 0
    (by decide) (by decide) (by decide) (by decide) (by decide) (by decide)
    (by decide)).2.2.2.2.1

/-! ## Claim C6 -/

/-- No part of the engine ever emits a `closeSocket` action: the source
contains no `ws.close` call. -/
theorem ccs_no_close (cfg : Config) (st : ServerState) (rws src tgt : Nat) (fwd : ℤ)
    (sock : Nat) :
    Action.closeSocket sock ∉ (createConnectionStart cfg st rws src tgt fwd).2 := by
  unfold createConnectionStart
  split
  · simp [wsSendResponse]
  · split
    · simp [wsSendResponse]
    · split <;> simp

theorem commitPending_no_close (cfg : Config) (st : ServerState) (pid sock : Nat) :
    Action.closeSocket sock ∉ (commitPending cfg st pid).2 := by
  unfold commitPending
  split <;> simp

theorem handleRegister_no_close (st : ServerState) (s : Nat) (k u : String) (a : Bool)
    (wl bl : List ℤ) (ct : ClientType) (sock : Nat) :
    Action.closeSocket sock ∉ (handleRegister st s k u a wl bl ct).2 := by
  unfold handleRegister
  split <;> simp

theorem connectProceed_no_close (cfg : Config) (st : ServerState) (s src tgt : Nat)
    (port : ℤ) (sock : Nat) :
    Action.closeSocket sock ∉ (connectProceed cfg st s src tgt port).2 := by
  unfold connectProceed
  split
  · exact ccs_no_close cfg st s src tgt port sock
  · simp

theorem handleConnectToHost_no_close (cfg : Config) (st : ServerState) (s : Nat)
    (target : String) (port : ℤ) (sock : Nat) :
    Action.closeSocket sock ∉ (handleConnectToHost cfg st s target port).2 := by
  unfold handleConnectToHost
  split
  · simp [wsSendResponse]
  · split
    · simp [wsSendResponse]
    · split
      · split
        · simp [wsSendResponse]
        · exact connectProceed_no_close cfg st s _ _ port sock
      · split
        · split
          · simp [wsSendResponse]
          · exact connectProceed_no_close cfg st s _ _ port sock
        · exact connectProceed_no_close cfg st s _ _ port sock
    · simp [wsSendResponse]

theorem handleMessage_no_close (cfg : Config) (st : ServerState) (s : Nat) (d : InData)
    (sock : Nat) :
    Action.closeSocket sock ∉ (handleMessage cfg st s d).2 := by
  unfold handleMessage
  split
  · simp [wsSendResponse]
  · rename_i m
    by_cases hv : msgSchemaOK m = true
    · simp only [if_pos hv]
      cases m with
      | register k u a wl bl ct => exact handleRegister_no_close st s k u a wl bl ct sock
      | connect_to_host t p => exact handleConnectToHost_no_close cfg st s t p sock
      | connect_accept => simp
      | connect_deny => simp
    · simp only [if_neg hv]
      simp [wsSendResponse]

theorem runListener_no_close (cfg : Config) (st : ServerState) (l : Listener)
    (d : InData) (sock : Nat) :
    Action.closeSocket sock ∉ (runListener cfg st l d).2 := by
  cases d with
  | malformed detail => simp [runListener]
  | valid m =>
      by_cases hv : msgSchemaOK m = true
      · simp only [runListener, if_pos hv]
        cases m with
        | register k u a wl bl ct => simp
        | connect_to_host t p => simp
        | connect_accept =>
            exact ccs_no_close cfg (removeListenerStep st l)
              l.requesterWs l.source l.target l.port sock
        | connect_deny => simp [wsSendResponse]
      · simp only [runListener, if_neg hv]
        simp

theorem runListeners_no_close (cfg : Config) (ls : List Listener) (d : InData)
    (sock : Nat) :
    ∀ st : ServerState, Action.closeSocket sock ∉ (runListeners cfg st ls d).2 := by
  induction ls with
  | nil => intro st; simp [runListeners]
  | cons l rest ih =>
      intro st
      unfold runListeners
      split
      · simp
      · simp only [List.mem_append]
        rintro (h | h)
        · exact runListener_no_close cfg st l d sock h
        · exact ih _ h

theorem handleClose_no_close (st : ServerState) (s sock : Nat) :
    Action.closeSocket sock ∉ (handleClose st s).2 := by
  unfold handleClose
  split
  · simp
  · split
    · simp
    · simp only [List.mem_append, List.mem_singleton]
      rintro ((h | h) | h)
      · revert h
        split <;> simp
      · revert h
        split <;> simp
      · simp at h

theorem step_no_closeSocket (cfg : Config) (st : ServerState) (e : Event) (sock : Nat) :
    Action.closeSocket sock ∉ (step cfg st e).2 := by
  unfold step
  split
  · simp
  · split
    · rename_i s d
      show Action.closeSocket sock ∉ (deliverMessage cfg st s d).2
      have : (deliverMessage cfg st s d).2 =
          (handleMessage cfg st s d).2 ++
          (runListeners cfg (handleMessage cfg st s d).1
            (st.listeners.filter (fun l => l.sock = s)) d).2 := rfl
      rw [this]
      simp only [List.mem_append]
      rintro (h | h)
      · exact handleMessage_no_close cfg st s d sock h
      · exact runListeners_no_close cfg _ d sock _ h
    · exact handleClose_no_close st _ sock
    · exact commitPending_no_close cfg st _ sock

/-- C6 counterexample: the zod `portSchema` has no `.int()` refinement, so
the JavaScript number 0.5 is accepted as a port even though it is not an
integer and not even in the claimed interval `[1, 65535]`. -/
theorem C6_counterexample :
    portSchemaOK ((1 : JsNum) / 2) = true ∧
    ¬((1 : JsNum) ≤ (1 : JsNum) / 2) ∧
    ((1 : JsNum) / 2).den ≠ 1 := by
  refine ⟨?_, by norm_num, by norm_num⟩
  simp only [portSchemaOK, Bool.and_eq_true, decide_eq_true_eq]
  norm_num

/-- C6 (amended): `portSchema` accepts exactly the numbers strictly greater
than 0 and at most 65535 — on integers this is precisely `[1, 65535]`, but
non-integral numbers in that range pass as well.  Every inbound message is
validated before dispatch: a message whose port fields fail the schema is
answered first with `response(false, detail)` carrying the serialized
validation issues, as is unparseable input with its parse detail; and no
step of the engine ever closes a websocket. -/
theorem C6_validation :
    (∀ n : ℤ, portSchemaOK (n : JsNum) = true ↔ 1 ≤ n ∧ n ≤ 65535) ∧
    (∀ (cfg : Config) (st : ServerState) (s : Nat) (m : Msg),
        st.crashed = false → msgSchemaOK m = false →
        ∃ rest, (step cfg st (Event.message s (InData.valid m))).2 =
          wsSendResponse s false (some (zodDetail m)) :: rest) ∧
    (∀ (cfg : Config) (st : ServerState) (s : Nat) (detail : String),
        st.crashed = false →
        ∃ rest, (step cfg st (Event.message s (InData.malformed detail))).2 =
          wsSendResponse s false (some detail) :: rest) ∧
    (∀ (cfg : Config) (st : ServerState) (e : Event) (sock : Nat),
        Action.closeSocket sock ∉ (step cfg st e).2) := by
  refine ⟨?_, ?_, ?_, step_no_closeSocket⟩
  · intro n
    rw [← portOK_eq_portSchemaOK]
    simp only [portOK, Bool.and_eq_true, decide_eq_true_eq]
    constructor
    · rintro ⟨h1, h2⟩
      exact ⟨by omega, h2⟩
    · rintro ⟨h1, h2⟩
      exact ⟨by omega, h2⟩
  · intro cfg st s m hcr hv
    have h1 : step cfg st (Event.message s (InData.valid m)) =
        deliverMessage cfg st s (InData.valid m) := by
      simp [step, hcr]
    have hm : handleMessage cfg st s (InData.valid m) =
        (st, [wsSendResponse s false (some (zodDetail m))]) := by
      simp only [handleMessage]
      rw [if_neg (by simp [hv])]
    refine ⟨(runListeners cfg st (st.listeners.filter (fun l => l.sock = s))
      (InData.valid m)).2, ?_⟩
    rw [h1]
    show (handleMessage cfg st s (InData.valid m)).2 ++
        (runListeners cfg (handleMessage cfg st s (InData.valid m)).1
          (st.listeners.filter (fun l => l.sock = s)) (InData.valid m)).2 = _
    rw [hm]
    simp
  · intro cfg st s detail hcr
    have h1 : step cfg st (Event.message s (InData.malformed detail)) =
        deliverMessage cfg st s (InData.malformed detail) := by
      simp [step, hcr]
    refine ⟨(runListeners cfg st (st.listeners.filter (fun l => l.sock = s))
      (InData.malformed detail)).2, ?_⟩
    rw [h1]
    rfl

/-- Witness for `C6_validation`: a `connect_to_host` with port 0 fails the
schema and gets the serialized validation detail on the empty state. -/
theorem C6_validation_witness :
    ∃ rest,
      (step cfgA initState (Event.message 5 (InData.valid (Msg.connect_to_host "A" 0)))).2 =
        wsSendResponse 5 false (some (zodDetail (Msg.connect_to_host "A" 0))) :: rest :=
  C6_validation.2.1 cfgA initState 5 (Msg.connect_to_host "A" 0) (by decide) (by decide)

end KensaPF
